import Mathlib

/-!
Verification development for the helix session-scheduling and
runner-coordination subsystem.

The repository sources under `src/` expose the HTTP route registration
(`ListenAndServe`, `ServerOptions`) and the per-model job stand-in types
(`api/pkg/controller/models.go`).  The scheduler, session state machine and
runner-gateway handler bodies are not among the shown sources; those parts
are modelled from the specification (each such definition carries a
`Modelled from the spec:` doc comment).  Everything else is embedded
directly from the source files.
-/

namespace Helix

/-- Session job mode (spec §3): fresh generation vs. model tuning. -/
inductive Mode where
  | create
  | finetune
deriving DecidableEq, Repr

/-- Session payload family (spec §3). -/
inductive Kind where
  | text
  | image
deriving DecidableEq, Repr

/-- Session lifecycle status (spec §3, §4.2). -/
inductive Status where
  | queued
  | claimed
  | running
  | finished
  | error
deriving DecidableEq, Repr

/-- Claim record held by a runner while executing a session (spec §3). -/
structure Claim where
  runnerId : String
  claimedAt : Nat
  leaseExpiry : Nat
deriving DecidableEq, Repr

/-- One append-only conversation/result turn (spec §3). -/
structure Interaction where
  role : String
  message : String
  files : List String
deriving DecidableEq, Repr

/-- Session record (spec §3). -/
structure Session where
  id : String
  owner : String
  mode : Mode
  kind : Kind
  modelName : String
  interactions : List Interaction
  status : Status
  claim : Option Claim
  createdAt : Nat
  updatedAt : Nat
deriving DecidableEq, Repr

/-- Fixed configuration (spec §4.1: the lease duration is a fixed
configuration value). -/
structure Config where
  leaseDuration : Nat
deriving DecidableEq, Repr

/-- Update-bus event carrying the session id, the new status and, for
terminal transitions, a short summary (spec §4.4). -/
structure SessionEvent where
  sessionId : String
  status : Status
  summary : String
deriving DecidableEq, Repr

/-- The state-machine triggers of spec §4.2: a successful claim, the
runner's first progress report, a runner response (success or failure),
and lease expiry. -/
inductive Op where
  | claimWork (runnerId : String) (now : Nat)
  | startWork
  | respond (runnerId : String) (success : Bool) (message : String) (files : List String)
  | expireLease (now : Nat)
deriving DecidableEq, Repr

/-- Whether `op` is the lease-expiry trigger. -/
def Op.isExpiry : Op → Bool
  | .expireLease _ => true
  | _ => false

/-- Whether the session's current claim is held by runner `r`
(spec §4.3: `Respond` validates that the claim belongs to the caller). -/
def claimOwnedBy (s : Session) (r : String) : Bool :=
  match s.claim with
  | some c => c.runnerId == r
  | none => false

/-- Modelled from the spec: the session state machine of §4.2/§4.3 — the
transition bodies are not among the shown sources.  Each trigger is guarded
by the session's current status (a response is applied only if the status
is Running and the claim is owned by the caller); a non-applicable trigger
leaves the session unchanged and emits nothing.  Every applied transition
emits exactly one update-bus event. -/
def stepSession (cfg : Config) (op : Op) (s : Session) :
    Session × List SessionEvent :=
  match op with
  | .claimWork r now =>
    if s.status = .queued then
      ({ s with
          status := .claimed
          claim := some ⟨r, now, now + cfg.leaseDuration⟩
          updatedAt := now },
       [⟨s.id, .claimed, ""⟩])
    else (s, [])
  | .startWork =>
    if s.status = .claimed then
      ({ s with status := .running }, [⟨s.id, .running, ""⟩])
    else (s, [])
  | .respond r ok msg resultFiles =>
    if s.status = .running ∧ claimOwnedBy s r = true then
      if ok then
        ({ s with
            status := .finished
            claim := none
            interactions := s.interactions ++ [⟨"system", msg, resultFiles⟩] },
         [⟨s.id, .finished, msg⟩])
      else
        ({ s with status := .error, claim := none }, [⟨s.id, .error, msg⟩])
    else (s, [])
  | .expireLease now =>
    match s.claim with
    | some c =>
      if (s.status = .claimed ∨ s.status = .running) ∧ c.leaseExpiry < now then
        ({ s with status := .queued, claim := none }, [⟨s.id, .queued, ""⟩])
      else (s, [])
    | none => (s, [])

/-- The legal status edges of spec §4.2: Queued→Claimed, Claimed→Running,
Running→Finished, Running→Error, and the lease-expiry requeues
Claimed→Queued, Running→Queued. -/
def statusEdge : Status → Status → Bool
  | .queued, .claimed => true
  | .claimed, .running => true
  | .running, .finished => true
  | .running, .error => true
  | .claimed, .queued => true
  | .running, .queued => true
  | _, _ => false

/-- The per-session invariant of spec §3: `claim` is non-null iff
`status ∈ {Claimed, Running}`. -/
def claimInvariant (s : Session) : Prop :=
  s.claim.isSome = (s.status == .claimed || s.status == .running)

/-- The annotated step trace of a session: for each trigger in the list,
the status before, the trigger, and the status after. -/
def stepsOf (cfg : Config) (s : Session) : List Op → List (Status × Op × Status)
  | [] => []
  | op :: ops =>
    (s.status, op, ((stepSession cfg op s).1).status)
      :: stepsOf cfg ((stepSession cfg op s).1) ops

theorem stepSession_status_cases (cfg : Config) (op : Op) (s : Session) :
    ((stepSession cfg op s).1.status = s.status) ∨
      (statusEdge s.status (stepSession cfg op s).1.status = true ∧
        ((stepSession cfg op s).1.status = Status.queued → op.isExpiry = true)) := by
  cases op with
  | claimWork r now =>
    by_cases h : s.status = .queued
    · right
      simp [stepSession, h, statusEdge]
    · left
      simp [stepSession, h]
  | startWork =>
    by_cases h : s.status = .claimed
    · right
      simp [stepSession, h, statusEdge]
    · left
      simp [stepSession, h]
  | respond r ok msg resultFiles =>
    by_cases h : s.status = .running ∧ claimOwnedBy s r = true
    · right
      cases ok <;> simp [stepSession, h, h.1, statusEdge]
    · left
      simp [stepSession, h]
  | expireLease now =>
    cases hc : s.claim with
    | none =>
      left
      simp [stepSession, hc]
    | some c =>
      by_cases h : (s.status = .claimed ∨ s.status = .running) ∧ c.leaseExpiry < now
      · right
        rcases h.1 with h1 | h1 <;>
          simp [stepSession, hc, h, h1, statusEdge, Op.isExpiry]
      · left
        simp [stepSession, hc, h]

theorem stepSession_terminal_fixed (cfg : Config) (op : Op) (s : Session)
    (h : s.status = Status.finished ∨ s.status = Status.error) :
    (stepSession cfg op s).1 = s := by
  have hq : ¬ s.status = .queued := by rcases h with h | h <;> simp [h]
  have hcl : ¬ s.status = .claimed := by rcases h with h | h <;> simp [h]
  have hr : ¬ s.status = .running := by rcases h with h | h <;> simp [h]
  cases op with
  | claimWork r now => simp [stepSession, hq]
  | startWork => simp [stepSession, hcl]
  | respond r ok msg resultFiles => simp [stepSession, hr]
  | expireLease now =>
    cases hc : s.claim with
    | none => simp [stepSession, hc]
    | some c => simp [stepSession, hc, hcl, hr]

/-- Capability filters of spec §4.1: conjunctive, an empty field matches
any value. -/
structure Filters where
  mode : Option Mode
  kind : Option Kind
  modelName : Option String
deriving DecidableEq, Repr

/-- Modelled from the spec: conjunctive capability matching (§4.1); the
filter-matching code is not among the shown sources. -/
def matchesFilters (f : Filters) (s : Session) : Bool :=
  (match f.mode with
    | none => true
    | some m => s.mode == m) &&
  (match f.kind with
    | none => true
    | some k => s.kind == k) &&
  (match f.modelName with
    | none => true
    | some n => s.modelName == n)

/-- A session a poll with filters `f` may claim: Queued and matching. -/
def isClaimable (f : Filters) (s : Session) : Bool :=
  s.status == .queued && matchesFilters f s

/-- First session with minimal `createdAt` in a list. -/
def earliestCreated : List Session → Option Session
  | [] => none
  | s :: rest =>
    match earliestCreated rest with
    | none => some s
    | some m => if s.createdAt ≤ m.createdAt then some s else some m

/-- Modelled from the spec: `Scheduler.ClaimNext` (§4.1) — not among the
shown sources.  Selects the oldest Queued session matching the filters and
atomically sets it to Claimed with a fresh Claim; the whole function is one
atomic step against the repository.  Returns the claimed session, or `none`
(NoWork) when nothing matches. -/
def claimNext (cfg : Config) (r : String) (f : Filters) (now : Nat)
    (repo : List Session) : Option Session × List Session :=
  match earliestCreated (repo.filter (isClaimable f)) with
  | none => (none, repo)
  | some c =>
    (some ((stepSession cfg (.claimWork r now) c).1),
     repo.map fun s =>
       if s.id == c.id then (stepSession cfg (.claimWork r now) c).1 else s)

/-- One poll call: runner identity, capability filters, call time. -/
structure PollCall where
  runnerId : String
  filters : Filters
  now : Nat
deriving DecidableEq, Repr

/-- An interleaving of poll calls, each an atomic `claimNext` step; returns
the per-call results and the final repository. -/
def runPolls (cfg : Config) : List PollCall → List Session →
    List (Option Session) × List Session
  | [], repo => ([], repo)
  | p :: ps, repo =>
    ((claimNext cfg p.runnerId p.filters p.now repo).1
        :: (runPolls cfg ps (claimNext cfg p.runnerId p.filters p.now repo).2).1,
     (runPolls cfg ps (claimNext cfg p.runnerId p.filters p.now repo).2).2)

/-- How many poll results in a trace matched the session with id `sid`. -/
def claimResults (results : List (Option Session)) (sid : String) : Nat :=
  (results.filter fun o =>
    match o with
    | some s => s.id == sid
    | none => false).length

theorem stepSession_id (cfg : Config) (op : Op) (s : Session) :
    (stepSession cfg op s).1.id = s.id := by
  cases op with
  | claimWork r now =>
    by_cases h : s.status = .queued <;> simp [stepSession, h]
  | startWork =>
    by_cases h : s.status = .claimed <;> simp [stepSession, h]
  | respond r ok msg resultFiles =>
    by_cases h : s.status = .running ∧ claimOwnedBy s r = true
    · cases ok <;> simp [stepSession, h]
    · simp [stepSession, h]
  | expireLease now =>
    cases hc : s.claim with
    | none => simp [stepSession, hc]
    | some c =>
      by_cases h : (s.status = .claimed ∨ s.status = .running) ∧
          c.leaseExpiry < now
      · simp [stepSession, hc, h]
      · simp [stepSession, hc, h]

theorem stepSession_claimWork_status (cfg : Config) (r : String) (now : Nat)
    (s : Session) (h : s.status = .queued) :
    (stepSession cfg (.claimWork r now) s).1.status = .claimed := by
  simp [stepSession, h]

theorem isClaimable_queued {f : Filters} {s : Session}
    (h : isClaimable f s = true) : s.status = .queued := by
  rw [isClaimable, Bool.and_eq_true, beq_iff_eq] at h
  exact h.1

theorem earliestCreated_cons_none (a : Session) {rest : List Session}
    (hr : earliestCreated rest = none) :
    earliestCreated (a :: rest) = some a := by
  rw [earliestCreated, hr]

theorem earliestCreated_cons_some (a : Session) {rest : List Session}
    {b : Session} (hr : earliestCreated rest = some b) :
    earliestCreated (a :: rest) =
      if a.createdAt ≤ b.createdAt then some a else some b := by
  rw [earliestCreated, hr]

theorem earliestCreated_mem {l : List Session} {m : Session}
    (h : earliestCreated l = some m) : m ∈ l := by
  induction l generalizing m with
  | nil => simp [earliestCreated] at h
  | cons a rest ih =>
    cases hr : earliestCreated rest with
    | none =>
      rw [earliestCreated_cons_none a hr] at h
      have ham : a = m := by injection h
      rw [← ham]
      exact List.mem_cons_self a rest
    | some b =>
      rw [earliestCreated_cons_some a hr] at h
      by_cases hle : a.createdAt ≤ b.createdAt
      · rw [if_pos hle] at h
        have ham : a = m := by injection h
        rw [← ham]
        exact List.mem_cons_self a rest
      · rw [if_neg hle] at h
        have hbm : b = m := by injection h
        exact List.mem_cons_of_mem a (hbm ▸ ih hr)

theorem earliestCreated_eq_none {l : List Session}
    (h : earliestCreated l = none) : l = [] := by
  cases l with
  | nil => rfl
  | cons a rest =>
    cases hr : earliestCreated rest with
    | none =>
      rw [earliestCreated_cons_none a hr] at h
      simp at h
    | some b =>
      rw [earliestCreated_cons_some a hr] at h
      split at h <;> simp at h

theorem earliestCreated_min {l : List Session} {m : Session}
    (h : earliestCreated l = some m) :
    ∀ x ∈ l, m.createdAt ≤ x.createdAt := by
  induction l generalizing m with
  | nil => simp [earliestCreated] at h
  | cons a rest ih =>
    cases hr : earliestCreated rest with
    | none =>
      rw [earliestCreated_cons_none a hr] at h
      have ham : a = m := by injection h
      have hrest : rest = [] := earliestCreated_eq_none hr
      subst hrest
      intro x hx
      simp at hx
      subst hx
      exact le_of_eq (by rw [ham])
    | some b =>
      rw [earliestCreated_cons_some a hr] at h
      intro x hx
      have hb := ih hr
      by_cases hle : a.createdAt ≤ b.createdAt
      · rw [if_pos hle] at h
        have ham : a = m := by injection h
        rcases List.mem_cons.mp hx with hx | hx
        · subst hx
          exact le_of_eq (by rw [ham])
        · calc m.createdAt = a.createdAt := by rw [ham]
            _ ≤ b.createdAt := hle
            _ ≤ x.createdAt := hb x hx
      · rw [if_neg hle] at h
        have hbm : b = m := by injection h
        rcases List.mem_cons.mp hx with hx | hx
        · subst hx
          calc m.createdAt = b.createdAt := by rw [hbm]
            _ ≤ x.createdAt := Nat.le_of_not_le hle
        · calc m.createdAt = b.createdAt := by rw [hbm]
            _ ≤ x.createdAt := hb x hx

theorem earliestCreated_isSome {l : List Session} (h : l ≠ []) :
    (earliestCreated l).isSome = true := by
  cases l with
  | nil => exact absurd rfl h
  | cons a rest =>
    rw [earliestCreated]
    cases earliestCreated rest with
    | none => rfl
    | some b => by_cases hle : a.createdAt ≤ b.createdAt <;> simp [hle]

theorem claimNext_inv (cfg : Config) (r : String) (f : Filters) (now : Nat)
    (repo : List Session) (c : Session)
    (h : (claimNext cfg r f now repo).1 = some c) :
    ∃ m ∈ repo, isClaimable f m = true ∧
      c = (stepSession cfg (.claimWork r now) m).1 ∧
      (claimNext cfg r f now repo).2
        = repo.map (fun s => if s.id == m.id then c else s) := by
  cases hm : earliestCreated (repo.filter (isClaimable f)) with
  | none => simp [claimNext, hm] at h
  | some m =>
    have hmem2 := List.mem_filter.mp (earliestCreated_mem hm)
    simp only [claimNext, hm] at h
    have hc : (stepSession cfg (.claimWork r now) m).1 = c := by
      injection h
    refine ⟨m, hmem2.1, hmem2.2, hc.symm, ?_⟩
    simp only [claimNext, hm, hc]

/-- No session with id `sid` in the repository is still Queued. -/
def noQueued (repo : List Session) (sid : String) : Prop :=
  ∀ s ∈ repo, s.id = sid → s.status ≠ .queued

theorem claimNext_miss_repo (cfg : Config) (r : String) (f : Filters)
    (now : Nat) (repo : List Session)
    (h : (claimNext cfg r f now repo).1 = none) :
    (claimNext cfg r f now repo).2 = repo := by
  cases hm : earliestCreated (repo.filter (isClaimable f)) with
  | none => simp [claimNext, hm]
  | some m => simp [claimNext, hm] at h

theorem noQueued_claimNext (cfg : Config) (r : String) (f : Filters)
    (now : Nat) (repo : List Session) (sid : String)
    (h : noQueued repo sid) :
    (∀ c, (claimNext cfg r f now repo).1 = some c → ¬ c.id = sid) ∧
      noQueued (claimNext cfg r f now repo).2 sid := by
  constructor
  · intro c hc hcid
    obtain ⟨m, hmrepo, hmcl, hcm, hrepo2⟩ := claimNext_inv _ _ _ _ _ _ hc
    have hq : m.status = .queued := isClaimable_queued hmcl
    have hmid : c.id = m.id := by rw [hcm, stepSession_id]
    exact h m hmrepo (by rw [← hmid, hcid]) hq
  · cases hm : (claimNext cfg r f now repo).1 with
    | none => rw [claimNext_miss_repo _ _ _ _ _ hm]; exact h
    | some c =>
      obtain ⟨m, hmrepo, hmcl, hcm, hrepo2⟩ := claimNext_inv _ _ _ _ _ _ hm
      have hq : m.status = .queued := isClaimable_queued hmcl
      rw [hrepo2]
      intro y hy hyid
      obtain ⟨s, hs, hys⟩ := List.mem_map.mp hy
      by_cases hsm : s.id = m.id
      · have hcond : (s.id == m.id) = true := by simp [hsm]
        rw [if_pos hcond] at hys
        rw [← hys, hcm, stepSession_claimWork_status cfg r now m hq]
        simp
      · have hcond : ¬ ((s.id == m.id) = true) := by simp [hsm]
        rw [if_neg hcond] at hys
        rw [← hys] at hyid ⊢
        exact h s hs hyid

theorem noQueued_after_claim (cfg : Config) (r : String) (f : Filters)
    (now : Nat) (repo : List Session) (sid : String) (c : Session)
    (h : (claimNext cfg r f now repo).1 = some c) (hid : c.id = sid) :
    noQueued (claimNext cfg r f now repo).2 sid := by
  obtain ⟨m, hmrepo, hmcl, hcm, hrepo2⟩ := claimNext_inv _ _ _ _ _ _ h
  have hq : m.status = .queued := isClaimable_queued hmcl
  have hcid : c.id = m.id := by rw [hcm, stepSession_id]
  rw [hrepo2]
  intro y hy hyid
  obtain ⟨s, hs, hys⟩ := List.mem_map.mp hy
  by_cases hsm : s.id = m.id
  · have hcond : (s.id == m.id) = true := by simp [hsm]
    rw [if_pos hcond] at hys
    rw [← hys, hcm, stepSession_claimWork_status cfg r now m hq]
    simp
  · have hcond : ¬ ((s.id == m.id) = true) := by simp [hsm]
    rw [if_neg hcond] at hys
    rw [← hys] at hyid
    exact absurd (by rw [hyid, ← hid, hcid]) hsm

theorem noQueued_runPolls (cfg : Config) (calls : List PollCall)
    (repo : List Session) (sid : String) (h : noQueued repo sid) :
    claimResults (runPolls cfg calls repo).1 sid = 0 := by
  induction calls generalizing repo with
  | nil => simp [runPolls, claimResults]
  | cons p ps ih =>
    have hA := noQueued_claimNext cfg p.runnerId p.filters p.now repo sid h
    rw [runPolls]
    simp only [claimResults, List.countP_cons]
    cases hres : (claimNext cfg p.runnerId p.filters p.now repo).1 with
    | none =>
      simpa [claimResults] using ih _ (hA.2)
    | some c =>
      have hne := hA.1 c hres
      have hbeq : (c.id == sid) = false := by
        rw [beq_eq_false_iff_ne]
        exact hne
      simpa [claimResults, hbeq] using ih _ (hA.2)

/-- Claim C1: for every session S and any interleaving of Poll/ClaimNext
calls, at most one call ever receives S as its matched result.  Each
find-candidate-and-claim step is one atomic conditional update (`claimNext`
applied atomically in sequence), so two runners can never both claim S. -/
theorem at_most_one_claim (cfg : Config) (calls : List PollCall)
    (repo : List Session) (sid : String) :
    claimResults (runPolls cfg calls repo).1 sid ≤ 1 := by
  induction calls generalizing repo with
  | nil => simp [runPolls, claimResults]
  | cons p ps ih =>
    rw [runPolls]
    simp only [claimResults, List.countP_cons]
    cases hres : (claimNext cfg p.runnerId p.filters p.now repo).1 with
    | none =>
      simpa [claimResults] using
        ih ((claimNext cfg p.runnerId p.filters p.now repo).2)
    | some c =>
      by_cases hid : c.id = sid
      · have hrest := noQueued_runPolls cfg ps
          ((claimNext cfg p.runnerId p.filters p.now repo).2) sid
          (noQueued_after_claim cfg p.runnerId p.filters p.now repo sid c
            hres hid)
        simp [claimResults] at hrest
        simp [claimResults, hid]
        exact hrest
      · have hbeq : (c.id == sid) = false := by
          rw [beq_eq_false_iff_ne]
          exact hid
        simpa [claimResults, hbeq] using
          ih ((claimNext cfg p.runnerId p.filters p.now repo).2)

/-- Witness for C1: two concurrent polls over one queued session — at most
one of them receives it. -/
theorem at_most_one_claim_w :
    claimResults
      (runPolls ⟨600⟩
        [⟨"r1", ⟨none, none, none⟩, 1⟩, ⟨"r2", ⟨none, none, none⟩, 2⟩]
        [⟨"s1", "alice", .create, .text, "m1", [], .queued, none, 0, 0⟩]).1
      "s1" ≤ 1 :=
  at_most_one_claim ⟨600⟩
    [⟨"r1", ⟨none, none, none⟩, 1⟩, ⟨"r2", ⟨none, none, none⟩, 2⟩]
    [⟨"s1", "alice", .create, .text, "m1", [], .queued, none, 0, 0⟩] "s1"

/-- Claim C2: for every non-empty set of Queued sessions whose mode, kind
and modelName all match a poll's conjunctive capability filters (an empty
filter field matching any value), `claimNext` returns (the claimed copy of)
the matching session with the earliest `createdAt`. -/
theorem claimNext_fifo (cfg : Config) (r : String) (f : Filters) (now : Nat)
    (repo : List Session)
    (hne : ∃ x ∈ repo, isClaimable f x = true) :
    ∃ c ∈ repo, isClaimable f c = true ∧
      (claimNext cfg r f now repo).1
        = some ((stepSession cfg (.claimWork r now) c).1) ∧
      ∀ x ∈ repo, isClaimable f x = true → c.createdAt ≤ x.createdAt := by
  obtain ⟨x0, hx0, hcl0⟩ := hne
  have hfl : x0 ∈ repo.filter (isClaimable f) :=
    List.mem_filter.mpr ⟨hx0, hcl0⟩
  have hne2 : repo.filter (isClaimable f) ≠ [] := by
    intro hemp
    rw [hemp] at hfl
    simp at hfl
  have hsome := earliestCreated_isSome hne2
  cases hm : earliestCreated (repo.filter (isClaimable f)) with
  | none => rw [hm] at hsome; simp at hsome
  | some m =>
    have hmem2 := List.mem_filter.mp (earliestCreated_mem hm)
    refine ⟨m, hmem2.1, hmem2.2, ?_, ?_⟩
    · simp only [claimNext, hm]
    · intro x hx hclx
      exact earliestCreated_min hm x (List.mem_filter.mpr ⟨hx, hclx⟩)

/-- Witness for C2: with two matching queued sessions, the poll claims the
older one. -/
theorem claimNext_fifo_w :
    ∃ c ∈ [(⟨"sA", "alice", .create, .text, "m1", [], .queued, none, 5, 5⟩ :
              Session),
           ⟨"sB", "bob", .create, .text, "m1", [], .queued, none, 3, 3⟩],
      isClaimable ⟨none, none, none⟩ c = true ∧
      (claimNext ⟨600⟩ "r1" ⟨none, none, none⟩ 9
          [⟨"sA", "alice", .create, .text, "m1", [], .queued, none, 5, 5⟩,
           ⟨"sB", "bob", .create, .text, "m1", [], .queued, none, 3, 3⟩]).1
        = some ((stepSession ⟨600⟩ (.claimWork "r1" 9) c).1) ∧
      ∀ x ∈ [(⟨"sA", "alice", .create, .text, "m1", [], .queued, none, 5, 5⟩ :
                Session),
             ⟨"sB", "bob", .create, .text, "m1", [], .queued, none, 3, 3⟩],
        isClaimable ⟨none, none, none⟩ x = true →
          c.createdAt ≤ x.createdAt :=
  claimNext_fifo ⟨600⟩ "r1" ⟨none, none, none⟩ 9
    [⟨"sA", "alice", .create, .text, "m1", [], .queued, none, 5, 5⟩,
     ⟨"sB", "bob", .create, .text, "m1", [], .queued, none, 3, 3⟩]
    (by decide)

/-- Claim C3: for every session, the sequence of status values it takes over
time is a subsequence of Queued→Claimed→Running→{Finished|Error}, with Queued
repeating only via lease expiry; once a session is Finished or Error, no
operation ever changes its status again.  Stated over the annotated trace of
any list of triggers: every step either leaves the status unchanged or
follows a legal edge (with a move back to Queued only at a lease-expiry
trigger), and a step from a terminal status never changes it. -/
theorem status_monotonic (cfg : Config) (s : Session) (ops : List Op) :
    ∀ t ∈ stepsOf cfg s ops,
      (t.2.2 = t.1 ∨
        (statusEdge t.1 t.2.2 = true ∧
          (t.2.2 = Status.queued → t.2.1.isExpiry = true)))
      ∧ ((t.1 = Status.finished ∨ t.1 = Status.error) → t.2.2 = t.1) := by
  induction ops generalizing s with
  | nil => intro t ht; simp [stepsOf] at ht
  | cons op ops ih =>
    intro t ht
    rw [stepsOf, List.mem_cons] at ht
    rcases ht with ht | ht
    · subst ht
      refine ⟨?_, ?_⟩
      · rcases stepSession_status_cases cfg op s with h | h
        · exact Or.inl h
        · exact Or.inr h
      · intro hterm
        rw [stepSession_terminal_fixed cfg op s hterm]
    · exact ih ((stepSession cfg op s).1) t ht

/-- Witness for C3 at a concrete queued session and a single claim trigger. -/
theorem status_monotonic_w :
    ((Status.queued, Op.claimWork "r1" 5, Status.claimed).2.2
        = (Status.queued, Op.claimWork "r1" 5, Status.claimed).1 ∨
      (statusEdge (Status.queued, Op.claimWork "r1" 5, Status.claimed).1
          (Status.queued, Op.claimWork "r1" 5, Status.claimed).2.2 = true ∧
        ((Status.queued, Op.claimWork "r1" 5, Status.claimed).2.2 = Status.queued →
          (Status.queued, Op.claimWork "r1" 5, Status.claimed).2.1.isExpiry = true)))
    ∧ (((Status.queued, Op.claimWork "r1" 5, Status.claimed).1 = Status.finished ∨
        (Status.queued, Op.claimWork "r1" 5, Status.claimed).1 = Status.error) →
      (Status.queued, Op.claimWork "r1" 5, Status.claimed).2.2
        = (Status.queued, Op.claimWork "r1" 5, Status.claimed).1) :=
  status_monotonic ⟨600⟩
    ⟨"s1", "alice", .create, .text, "m1", [], .queued, none, 0, 0⟩
    [Op.claimWork "r1" 5]
    (Status.queued, Op.claimWork "r1" 5, Status.claimed) (by decide)

/-- Claim C4: `Respond` is idempotent — applying the same successful payload
twice produces exactly one Running→Finished transition, exactly one appended
result interaction, and exactly one terminal event, because a response is
applied only when the current status is Running.  The second application
leaves the session unchanged and emits nothing. -/
theorem respond_idempotent (cfg : Config) (s : Session) (r msg : String)
    (resultFiles : List String)
    (hrun : s.status = Status.running) (hown : claimOwnedBy s r = true) :
    (stepSession cfg (.respond r true msg resultFiles)
        (stepSession cfg (.respond r true msg resultFiles) s).1).1
      = (stepSession cfg (.respond r true msg resultFiles) s).1
    ∧ (stepSession cfg (.respond r true msg resultFiles) s).1.status
      = Status.finished
    ∧ (stepSession cfg (.respond r true msg resultFiles) s).1.interactions
      = s.interactions ++ [⟨"system", msg, resultFiles⟩]
    ∧ (stepSession cfg (.respond r true msg resultFiles) s).2
      = [⟨s.id, Status.finished, msg⟩]
    ∧ (stepSession cfg (.respond r true msg resultFiles)
        (stepSession cfg (.respond r true msg resultFiles) s).1).2
      = ([] : List SessionEvent) := by
  have h1 : (stepSession cfg (.respond r true msg resultFiles) s)
      = ({ s with
            status := .finished
            claim := none
            interactions := s.interactions ++ [⟨"system", msg, resultFiles⟩] },
         [⟨s.id, .finished, msg⟩]) := by
    simp [stepSession, hrun, hown]
  rw [h1]
  refine ⟨?_, rfl, rfl, rfl, ?_⟩ <;> simp [stepSession]

/-- Witness for C4 at a concrete running session claimed by runner r1. -/
theorem respond_idempotent_w :
    (stepSession ⟨600⟩ (.respond "r1" true "done" ["out.png"])
        (stepSession ⟨600⟩ (.respond "r1" true "done" ["out.png"])
          ⟨"s1", "alice", .create, .image, "m1", [], .running,
            some ⟨"r1", 0, 600⟩, 0, 0⟩).1).1
      = (stepSession ⟨600⟩ (.respond "r1" true "done" ["out.png"])
          ⟨"s1", "alice", .create, .image, "m1", [], .running,
            some ⟨"r1", 0, 600⟩, 0, 0⟩).1
    ∧ (stepSession ⟨600⟩ (.respond "r1" true "done" ["out.png"])
        ⟨"s1", "alice", .create, .image, "m1", [], .running,
          some ⟨"r1", 0, 600⟩, 0, 0⟩).1.status = Status.finished
    ∧ (stepSession ⟨600⟩ (.respond "r1" true "done" ["out.png"])
        ⟨"s1", "alice", .create, .image, "m1", [], .running,
          some ⟨"r1", 0, 600⟩, 0, 0⟩).1.interactions
      = ([] : List Interaction) ++ [⟨"system", "done", ["out.png"]⟩]
    ∧ (stepSession ⟨600⟩ (.respond "r1" true "done" ["out.png"])
        ⟨"s1", "alice", .create, .image, "m1", [], .running,
          some ⟨"r1", 0, 600⟩, 0, 0⟩).2
      = [⟨"s1", Status.finished, "done"⟩]
    ∧ (stepSession ⟨600⟩ (.respond "r1" true "done" ["out.png"])
        (stepSession ⟨600⟩ (.respond "r1" true "done" ["out.png"])
          ⟨"s1", "alice", .create, .image, "m1", [], .running,
            some ⟨"r1", 0, 600⟩, 0, 0⟩).1).2
      = ([] : List SessionEvent) :=
  respond_idempotent ⟨600⟩
    ⟨"s1", "alice", .create, .image, "m1", [], .running,
      some ⟨"r1", 0, 600⟩, 0, 0⟩
    "r1" "done" ["out.png"] (by decide) (by decide)

/-- Claim C5: every state-machine trigger preserves the invariant that the
claim field is non-null iff the status is Claimed or Running: claiming sets
a Claim, requeue on lease expiry clears it, and no Queued, Finished or Error
session ever carries a claim. -/
theorem claimInvariant_preserved (cfg : Config) (op : Op) (s : Session)
    (h : claimInvariant s) : claimInvariant (stepSession cfg op s).1 := by
  cases op with
  | claimWork r now =>
    by_cases hq : s.status = .queued
    · simp [stepSession, hq, claimInvariant]
    · simpa [stepSession, hq] using h
  | startWork =>
    by_cases hcl : s.status = .claimed
    · have hsome : s.claim.isSome = true := by
        rw [claimInvariant, hcl] at h
        simpa using h
      simp [stepSession, hcl, claimInvariant, hsome]
    · simpa [stepSession, hcl] using h
  | respond r ok msg resultFiles =>
    by_cases hr : s.status = .running ∧ claimOwnedBy s r = true
    · cases ok <;> simp [stepSession, hr, hr.1, claimInvariant]
    · simpa [stepSession, hr] using h
  | expireLease now =>
    cases hc : s.claim with
    | none => simpa [stepSession, hc] using h
    | some c =>
      by_cases hcond : (s.status = .claimed ∨ s.status = .running) ∧
          c.leaseExpiry < now
      · simp [stepSession, hc, hcond, claimInvariant]
      · simpa [stepSession, hc, hcond] using h

/-- Witness for C5: the invariant holds after claiming a concrete queued
session that satisfies it. -/
theorem claimInvariant_preserved_w :
    claimInvariant
      (stepSession ⟨600⟩ (.claimWork "r1" 7)
        ⟨"s1", "alice", .finetune, .text, "m2", [], .queued, none, 0, 0⟩).1 :=
  claimInvariant_preserved ⟨600⟩ (.claimWork "r1" 7)
    ⟨"s1", "alice", .finetune, .text, "m2", [], .queued, none, 0, 0⟩
    (by rfl)

/-- Whether string `p` names a path under the namespace prefix `ns`. -/
def underNs (ns p : String) : Bool :=
  ns.data.isPrefixOf p.data

/-- The per-session filestore namespace `sessions/{sessionId}/` (spec §3,
glossary). -/
def sessionNs (sid : String) : String :=
  "sessions/" ++ sid ++ "/"

/-- The upload namespace `sessions/{sessionId}/results/` (spec §4.3 and the
route comment in `ListenAndServe`). -/
def resultsNs (sid : String) : String :=
  sessionNs sid ++ "results/"

/-- Outcome of a runner file operation (spec §7: NamespaceViolation is
always rejected, never retried). -/
inductive FileOpResult where
  | ok (path : String)
  | namespaceViolation
deriving DecidableEq, Repr

/-- Modelled from the spec: the `runnerSessionDownloadFile` handler's path
check (§4.3) — the handler body is not among the shown sources.  Streams a
file under the session's namespace; rejects paths outside
`sessions/{sessionId}/`. -/
def runnerSessionDownloadFile (runnerId sid path : String) : FileOpResult :=
  if underNs (sessionNs sid) path then .ok path else .namespaceViolation

/-- Modelled from the spec: the `runnerSessionUploadFiles` handler's path
check (§4.3) — the handler body is not among the shown sources.  Writes
into `sessions/{sessionId}/results/...`; rejects writes outside that
namespace. -/
def runnerSessionUploadFiles (runnerId sid path : String) : FileOpResult :=
  if underNs (resultsNs sid) path then .ok path else .namespaceViolation

theorem underNs_of_append {a b p : String} (h : underNs (a ++ b) p = true) :
    underNs a p = true := by
  rw [underNs, List.isPrefixOf_iff_prefix] at h ⊢
  have hd : (a ++ b).data = a.data ++ b.data := rfl
  rw [hd] at h
  exact (List.prefix_append a.data b.data).trans h

/-- Claim C6: for every DownloadFile or UploadFile request, any path not
prefixed by `sessions/{sessionId}/` is rejected with NamespaceViolation,
regardless of runner identity; uploads additionally land only under
`sessions/{sessionId}/results/`. -/
theorem namespace_containment (r r2 sid path : String) :
    (underNs (sessionNs sid) path = false →
      runnerSessionDownloadFile r sid path = .namespaceViolation ∧
      runnerSessionUploadFiles r sid path = .namespaceViolation)
    ∧ runnerSessionDownloadFile r sid path
      = runnerSessionDownloadFile r2 sid path
    ∧ runnerSessionUploadFiles r sid path
      = runnerSessionUploadFiles r2 sid path
    ∧ (∀ q, runnerSessionUploadFiles r sid path = .ok q →
        underNs (resultsNs sid) q = true) := by
  refine ⟨?_, rfl, rfl, ?_⟩
  · intro h
    constructor
    · rw [runnerSessionDownloadFile, if_neg]
      simp [h]
    · rw [runnerSessionUploadFiles, if_neg]
      intro hres
      have h2 := underNs_of_append (a := sessionNs sid) (b := "results/") hres
      rw [h2] at h
      exact absurd h (by simp)
  · intro q hq
    rw [runnerSessionUploadFiles] at hq
    by_cases hc : underNs (resultsNs sid) path = true
    · rw [if_pos hc] at hq
      injection hq with hq
      rw [← hq]
      exact hc
    · rw [if_neg hc] at hq
      exact absurd hq (by simp)

/-- Witness for C6 at a concrete out-of-namespace path and two runner
identities. -/
theorem namespace_containment_w :
    (underNs (sessionNs "s1") "sessions/other/input.png" = false →
      runnerSessionDownloadFile "rA" "s1" "sessions/other/input.png"
        = .namespaceViolation ∧
      runnerSessionUploadFiles "rA" "s1" "sessions/other/input.png"
        = .namespaceViolation)
    ∧ runnerSessionDownloadFile "rA" "s1" "sessions/other/input.png"
      = runnerSessionDownloadFile "rB" "s1" "sessions/other/input.png"
    ∧ runnerSessionUploadFiles "rA" "s1" "sessions/other/input.png"
      = runnerSessionUploadFiles "rB" "s1" "sessions/other/input.png"
    ∧ (∀ q, runnerSessionUploadFiles "rA" "s1" "sessions/other/input.png"
          = .ok q → underNs (resultsNs "s1") q = true) :=
  namespace_containment "rA" "rB" "s1" "sessions/other/input.png"

/-- An HTTP response as seen by a polling runner. -/
structure HttpResponse where
  statusCode : Nat
  body : String
deriving DecidableEq, Repr

/-- Modelled from the spec: the session payload returned on a poll hit
(sufficient fields for the runner; the exact serialization is not among the
shown sources). -/
def encodeSession (s : Session) : String :=
  "id=" ++ s.id ++ ";model=" ++ s.modelName

/-- Modelled from the spec: the `getNextRunnerSession` handler (§4.3, §6) —
the handler body is not among the shown sources; `ListenAndServe` registers
it with `SilenceErrors: true`.  Wraps `claimNext`; a miss is answered as a
200 success with an empty payload, never as an error status. -/
def getNextRunnerSession (cfg : Config) (r : String) (f : Filters) (now : Nat)
    (repo : List Session) : HttpResponse × List Session :=
  match (claimNext cfg r f now repo).1 with
  | none => (⟨200, ""⟩, (claimNext cfg r f now repo).2)
  | some s => (⟨200, encodeSession s⟩, (claimNext cfg r f now repo).2)

/-- Claim C8: a Poll that matches no Queued session returns a
distinguishable NoWork result without an error: the scheduler result is
`none` (NoWork, first-class), the HTTP poll endpoint answers an
empty-payload 200 success — never a 5xx — and the repository is left
unchanged. -/
theorem poll_no_work (cfg : Config) (r : String) (f : Filters) (now : Nat)
    (repo : List Session)
    (hmiss : ∀ s ∈ repo, isClaimable f s = false) :
    (claimNext cfg r f now repo).1 = none
    ∧ (getNextRunnerSession cfg r f now repo).1 = ⟨200, ""⟩
    ∧ (getNextRunnerSession cfg r f now repo).1.statusCode < 500
    ∧ (getNextRunnerSession cfg r f now repo).2 = repo := by
  have hfl : repo.filter (isClaimable f) = [] := by
    rw [List.filter_eq_nil_iff]
    intro s hs
    simp [hmiss s hs]
  have hnone : (claimNext cfg r f now repo).1 = none := by
    simp [claimNext, hfl, earliestCreated]
  have hrepo : (claimNext cfg r f now repo).2 = repo :=
    claimNext_miss_repo cfg r f now repo hnone
  refine ⟨hnone, ?_, ?_, ?_⟩ <;>
    simp [getNextRunnerSession, hnone, hrepo]

/-- Witness for C8: polling a repository holding only a Finished session
yields the empty-payload 200 response. -/
theorem poll_no_work_w :
    (claimNext ⟨600⟩ "r1" ⟨none, none, none⟩ 4
        [⟨"s1", "alice", .create, .text, "m1", [], .finished, none, 0, 2⟩]).1
      = none
    ∧ (getNextRunnerSession ⟨600⟩ "r1" ⟨none, none, none⟩ 4
        [⟨"s1", "alice", .create, .text, "m1", [], .finished, none, 0, 2⟩]).1
      = ⟨200, ""⟩
    ∧ (getNextRunnerSession ⟨600⟩ "r1" ⟨none, none, none⟩ 4
        [⟨"s1", "alice", .create, .text, "m1", [], .finished, none, 0, 2⟩]).1.statusCode
      < 500
    ∧ (getNextRunnerSession ⟨600⟩ "r1" ⟨none, none, none⟩ 4
        [⟨"s1", "alice", .create, .text, "m1", [], .finished, none, 0, 2⟩]).2
      = [⟨"s1", "alice", .create, .text, "m1", [], .finished, none, 0, 2⟩] :=
  poll_no_work ⟨600⟩ "r1" ⟨none, none, none⟩ 4
    [⟨"s1", "alice", .create, .text, "m1", [], .finished, none, 0, 2⟩]
    (by decide)

/-- Embedded from `ServerOptions` in the server source. -/
structure ServerOptions where
  URL : String
  Host : String
  Port : Nat
  KeyCloakURL : String
  KeyCloakToken : String
  LocalFilestorePath : String
deriving DecidableEq, Repr

/-- The Go constant `API_PREFIX`. -/
def API_PREFIX : String := "/api/v1"

/-- One registered HTTP route: method, full path pattern, and whether the
route sits behind the keycloak token-verification middleware (registered on
`authRouter` rather than the bare `subrouter`). -/
structure Route where
  method : String
  pattern : String
  authRequired : Bool
deriving DecidableEq, Repr

/-- Routes `ListenAndServe` registers before the conditional filestore
viewer: `/config` on the bare subrouter, then the authenticated service
methods. -/
def baseRoutesA : List Route :=
  [⟨"GET", API_PREFIX ++ "/config", false⟩,
   ⟨"GET", API_PREFIX ++ "/status", true⟩,
   ⟨"GET", API_PREFIX ++ "/transactions", true⟩,
   ⟨"GET", API_PREFIX ++ "/filestore/config", true⟩,
   ⟨"GET", API_PREFIX ++ "/filestore/list", true⟩,
   ⟨"GET", API_PREFIX ++ "/filestore/get", true⟩,
   ⟨"POST", API_PREFIX ++ "/filestore/folder", true⟩,
   ⟨"POST", API_PREFIX ++ "/filestore/upload", true⟩,
   ⟨"PUT", API_PREFIX ++ "/filestore/rename", true⟩,
   ⟨"DELETE", API_PREFIX ++ "/filestore/delete", true⟩,
   ⟨"POST", API_PREFIX ++ "/api_keys", true⟩,
   ⟨"GET", API_PREFIX ++ "/api_keys", true⟩,
   ⟨"DELETE", API_PREFIX ++ "/api_keys", true⟩,
   ⟨"GET", API_PREFIX ++ "/api_keys/check", true⟩]

/-- The path-prefix route for the local filestore viewer, registered on the
bare (unauthenticated) subrouter: any method, any path below the prefix. -/
def viewerRoute : Route :=
  ⟨"ANY", API_PREFIX ++ "/filestore/viewer/", false⟩

/-- Routes `ListenAndServe` registers after the conditional filestore
viewer: the authenticated session CRUD surface, then the runner endpoints
on the bare subrouter (source comment: "TODO: this has no auth right now").
The `/ws` websocket endpoint does its own identity lookup inside
`StartWebSocketServer` and is not part of this route table. -/
def baseRoutesB : List Route :=
  [⟨"GET", API_PREFIX ++ "/sessions", true⟩,
   ⟨"POST", API_PREFIX ++ "/sessions", true⟩,
   ⟨"GET", API_PREFIX ++ "/sessions/{id}", true⟩,
   ⟨"PUT", API_PREFIX ++ "/sessions/{id}", true⟩,
   ⟨"DELETE", API_PREFIX ++ "/sessions/{id}", true⟩,
   ⟨"GET", API_PREFIX ++ "/runner/{runnerid}/nextsession", false⟩,
   ⟨"POST", API_PREFIX ++ "/runner/{runnerid}/response", false⟩,
   ⟨"GET", API_PREFIX ++ "/runner/{runnerid}/session/{sessionid}/download",
     false⟩,
   ⟨"POST", API_PREFIX ++ "/runner/{runnerid}/session/{sessionid}/upload",
     false⟩]

/-- Embedded from `ListenAndServe`: the full route table, with the
filestore viewer present exactly when `LocalFilestorePath` is non-empty. -/
def serverRoutes (o : ServerOptions) : List Route :=
  baseRoutesA
    ++ (if o.LocalFilestorePath = "" then [] else [viewerRoute])
    ++ baseRoutesB

/-- Embedded from the viewer registration in `ListenAndServe`:
`http.StripPrefix` plus `http.FileServer(http.Dir(LocalFilestorePath))`
serves the file at `LocalFilestorePath ++ "/" ++ p` for any request path
`p` below the prefix and any caller — nothing inspects an identity or the
shape of the path. -/
def filestoreViewer (o : ServerOptions) (caller : Option String)
    (reqPath : String) : String :=
  o.LocalFilestorePath ++ "/" ++ reqPath

/-- Claim C7 (code_bug evidence): the claim says all four runner-gateway
operations require an externally authenticated runner identity, but
`ListenAndServe` registers all four `/runner/...` routes on the bare
subrouter, outside the keycloak middleware (source comment: "TODO: this has
no auth right now"), for every server options value.  So a request without
any identity is served, not rejected. -/
theorem runner_routes_unauthenticated (o : ServerOptions) :
    ((⟨"GET", API_PREFIX ++ "/runner/{runnerid}/nextsession", false⟩ : Route)
        ∈ serverRoutes o)
    ∧ ((⟨"POST", API_PREFIX ++ "/runner/{runnerid}/response", false⟩ : Route)
        ∈ serverRoutes o)
    ∧ ((⟨"GET",
          API_PREFIX ++ "/runner/{runnerid}/session/{sessionid}/download",
          false⟩ : Route) ∈ serverRoutes o)
    ∧ ((⟨"POST",
          API_PREFIX ++ "/runner/{runnerid}/session/{sessionid}/upload",
          false⟩ : Route) ∈ serverRoutes o)
    ∧ ∀ rt ∈ serverRoutes o,
        underNs (API_PREFIX ++ "/runner/") rt.pattern = true →
          rt.authRequired = false := by
  by_cases h : o.LocalFilestorePath = "" <;>
    simp only [serverRoutes, h, if_pos, if_neg, ite_true, ite_false,
      not_false_iff] <;>
    decide

/-- Witness for C7's divergence theorem at concrete server options. -/
theorem runner_routes_unauthenticated_w :
    ((⟨"GET", API_PREFIX ++ "/runner/{runnerid}/nextsession", false⟩ : Route)
        ∈ serverRoutes ⟨"http://localhost", "0.0.0.0", 80, "http://kc",
            "token1", ""⟩)
    ∧ ((⟨"POST", API_PREFIX ++ "/runner/{runnerid}/response", false⟩ : Route)
        ∈ serverRoutes ⟨"http://localhost", "0.0.0.0", 80, "http://kc",
            "token1", ""⟩)
    ∧ ((⟨"GET",
          API_PREFIX ++ "/runner/{runnerid}/session/{sessionid}/download",
          false⟩ : Route)
        ∈ serverRoutes ⟨"http://localhost", "0.0.0.0", 80, "http://kc",
            "token1", ""⟩)
    ∧ ((⟨"POST",
          API_PREFIX ++ "/runner/{runnerid}/session/{sessionid}/upload",
          false⟩ : Route)
        ∈ serverRoutes ⟨"http://localhost", "0.0.0.0", 80, "http://kc",
            "token1", ""⟩)
    ∧ ∀ rt ∈ serverRoutes ⟨"http://localhost", "0.0.0.0", 80, "http://kc",
          "token1", ""⟩,
        underNs (API_PREFIX ++ "/runner/") rt.pattern = true →
          rt.authRequired = false :=
  runner_routes_unauthenticated
    ⟨"http://localhost", "0.0.0.0", 80, "http://kc", "token1", ""⟩

/-- Claim C9: when `LocalFilestorePath` is non-empty, the server registers
an unauthenticated route under `/api/v1/filestore/viewer/` that serves any
file beneath the filestore root to any caller, with no owner check and no
session-namespace restriction on the requested path. -/
theorem filestore_viewer_open (o : ServerOptions)
    (h : o.LocalFilestorePath ≠ "") :
    viewerRoute ∈ serverRoutes o
    ∧ viewerRoute.authRequired = false
    ∧ (∀ c c2 p, filestoreViewer o c p = filestoreViewer o c2 p)
    ∧ (∀ c p, filestoreViewer o c p = o.LocalFilestorePath ++ "/" ++ p) := by
  refine ⟨?_, rfl, fun _ _ _ => rfl, fun _ _ => rfl⟩
  have hmem : viewerRoute
      ∈ (if o.LocalFilestorePath = "" then ([] : List Route)
          else [viewerRoute]) := by
    rw [if_neg h]
    exact List.mem_singleton.mpr rfl
  exact List.mem_append.mpr
    (Or.inl (List.mem_append.mpr (Or.inr hmem)))

/-- Witness for C9 at concrete server options with a local filestore. -/
theorem filestore_viewer_open_w :
    viewerRoute
      ∈ serverRoutes ⟨"http://localhost", "0.0.0.0", 80, "http://kc",
          "token1", "/filestore"⟩
    ∧ viewerRoute.authRequired = false
    ∧ (∀ c c2 p,
        filestoreViewer ⟨"http://localhost", "0.0.0.0", 80, "http://kc",
            "token1", "/filestore"⟩ c p
          = filestoreViewer ⟨"http://localhost", "0.0.0.0", 80, "http://kc",
              "token1", "/filestore"⟩ c2 p)
    ∧ (∀ c p,
        filestoreViewer ⟨"http://localhost", "0.0.0.0", 80, "http://kc",
            "token1", "/filestore"⟩ c p
          = "/filestore" ++ "/" ++ p) :=
  filestore_viewer_open
    ⟨"http://localhost", "0.0.0.0", 80, "http://kc", "token1", "/filestore"⟩
    (by decide)

end Helix

namespace Helix.Controller

/-- Stand-in for Go's `context.Context` as the stubbed methods receive it
(they ignore it entirely). -/
structure GoContext where
  deadline : Option Nat
deriving DecidableEq, Repr

/-- Embedded from `TextToImage` in `api/pkg/controller/models.go` (channels
become message lists). -/
structure TextToImage where
  Prompt : String
  OutputPath : String
  DebugStream : List String
  OutputStream : List String
  Status : String
  ResultImages : List String
deriving DecidableEq, Repr

/-- Embedded from `models.go`: the method body is `return nil`. -/
def TextToImage.SDXL_1_0_Base (t2i : TextToImage) (ctx : GoContext) :
    Option String :=
  none

/-- Embedded from `LanguageModel` in `models.go`. -/
structure LanguageModel where
  Interactions : List Helix.Interaction
  DebugStream : List String
  OutputStream : List String
  Status : String
deriving DecidableEq, Repr

/-- Embedded from `models.go`: the method body is `return nil`. -/
def LanguageModel.Mistral_7B_Instruct_v0_1 (l : LanguageModel)
    (ctx : GoContext) : Option String :=
  none

/-- Embedded from `FinetuneTextToImage` in `models.go`. -/
structure FinetuneTextToImage where
  InputPath : String
  OutputPath : String
  DebugStream : List String
  OutputStream : List String
  Status : String
  OutputFile : String
deriving DecidableEq, Repr

/-- Embedded from `models.go`: the method body is `return nil`. -/
def FinetuneTextToImage.SDXL_1_0_Base_Finetune (f : FinetuneTextToImage)
    (ctx : GoContext) : Option String :=
  none

/-- Embedded from the `ShareGPT` conversations element in `models.go`. -/
structure ShareGPTTurn where
  From : String
  Value : String
deriving DecidableEq, Repr

/-- Embedded from `ShareGPT` in `models.go`. -/
structure ShareGPT where
  Conversations : List ShareGPTTurn
deriving DecidableEq, Repr

/-- Embedded from `FinetuneLanguageModel` in `models.go`.  The source
declares no method with this receiver type. -/
structure FinetuneLanguageModel where
  InputDataset : ShareGPT
  OutputPath : String
  DebugStream : List String
  OutputStream : List String
  Status : String
  OutputFile : String
deriving DecidableEq, Repr

/-- Embedded from `models.go` line 71: the finetune Mistral method is
declared with receiver `*FinetuneTextToImage` (not
`*FinetuneLanguageModel`); its body is `return nil`. -/
def FinetuneTextToImage.Mistral_7B_Instruct_v0_1 (f : FinetuneTextToImage)
    (ctx : GoContext) : Option String :=
  none

/-- The four receiver types declared in `models.go`. -/
inductive ModelReceiver where
  | textToImage
  | languageModel
  | finetuneTextToImage
  | finetuneLanguageModel
deriving DecidableEq, Repr

/-- The method table of `models.go`: which receiver type each of the four
model-execution methods is declared on, in source order. -/
def declaredModelMethods : List (ModelReceiver × String) :=
  [(.textToImage, "SDXL_1_0_Base"),
   (.languageModel, "Mistral_7B_Instruct_v0_1"),
   (.finetuneTextToImage, "SDXL_1_0_Base_Finetune"),
   (.finetuneTextToImage, "Mistral_7B_Instruct_v0_1")]

/-- Claim C10: every model-execution method on the job-kind stand-in types
returns nil for every context; moreover the finetune Mistral method is
declared with receiver `FinetuneTextToImage`, so `FinetuneLanguageModel`
has no execution method at all. -/
theorem model_methods_all_nil :
    (∀ (t : TextToImage) (ctx : GoContext), t.SDXL_1_0_Base ctx = none)
    ∧ (∀ (l : LanguageModel) (ctx : GoContext),
        l.Mistral_7B_Instruct_v0_1 ctx = none)
    ∧ (∀ (f : FinetuneTextToImage) (ctx : GoContext),
        f.SDXL_1_0_Base_Finetune ctx = none)
    ∧ (∀ (f : FinetuneTextToImage) (ctx : GoContext),
        f.Mistral_7B_Instruct_v0_1 ctx = none)
    ∧ (ModelReceiver.finetuneTextToImage, "Mistral_7B_Instruct_v0_1")
        ∈ declaredModelMethods
    ∧ ∀ m ∈ declaredModelMethods,
        m.1 ≠ ModelReceiver.finetuneLanguageModel :=
  ⟨fun _ _ => rfl, fun _ _ => rfl, fun _ _ => rfl, fun _ _ => rfl,
   by decide, by decide⟩

end Helix.Controller
